import Mathlib

/-!
Verification of the Z80 CPU core of the zxemulator repository.

The definitions below are a shallow embedding of `src/cpu.py`, `src/machine.py`,
`src/ram.py` and `src/interfaces.py`.  Python integers are modelled by `Int`
(arbitrary precision, two's-complement bitwise semantics); Python lists of
bytes by `List Nat`; the 64 KiB RAM configured by the repository's test
fixture (`MemoryDevice(RAM(), 0x0000, 0xffff)`) by a total function
`Nat → Nat` together with the mapped-range checks of `MemoryMgr`.
Fallible operations (Python exceptions such as `TypeError`, `ValueError`,
`IndexError` and the emulator's `InvalidInstruction`) return `Option`.
-/

set_option maxRecDepth 10000

namespace ZX

/-- Python bitwise NOT on arbitrary-precision integers: `~x = -x - 1`. -/
def pyNot (x : Int) : Int := -x - 1

/-- Python bitwise XOR on arbitrary-precision integers (two's complement). -/
def pyXor (x y : Int) : Int :=
  if 0 ≤ x then
    if 0 ≤ y then ((x.toNat ^^^ y.toNat : Nat) : Int)
    else pyNot ((x.toNat ^^^ (pyNot y).toNat : Nat) : Int)
  else
    if 0 ≤ y then pyNot (((pyNot x).toNat ^^^ y.toNat : Nat) : Int)
    else (((pyNot x).toNat ^^^ (pyNot y).toNat : Nat) : Int)

/-- Python bitwise AND of an arbitrary-precision integer with a non-negative
mask (two's complement): for `x < 0`, `x & y = y \ (y & ~x)`. -/
def pyAnd (x : Int) (y : Nat) : Nat :=
  if 0 ≤ x then x.toNat &&& y else y - (y &&& (pyNot x).toNat)

/-- Modelled from the spec: the repository's `utils` module is not under
`src/`; per the F-register bit table (spec §3) and all call sites,
`set_bit(value, bit)` returns `value` with bit `bit` set. -/
def set_bit (value : Nat) (bit : Nat) : Nat := value ||| (1 <<< bit)

/-- Modelled from the spec: `utils.is_bit_set(value, bit)` tests whether bit
`bit` of `value` is set. -/
def is_bit_set (value : Nat) (bit : Nat) : Bool := value &&& (1 <<< bit) != 0

/-! ### The machine (bus) — `machine.py`, `ram.py`, `interfaces.py`

The machine is configured as in the repository's CPU test fixture: a single
`RAM()` device of size 0x10000 mapped through `MemoryDevice` at
0x0000..0xffff.  `MemoryMgr.get_memory_for_addr` returns that device exactly
for addresses in [0x0000, 0xffff]; outside that range the machine is in
non-strict mode, so reads yield 0xff/0xffff and writes are silently dropped.
`RAM._check_value` raises `ValueError` on out-of-range values; that failure
is modelled by `none`.  I/O devices are abstracted by a response function;
`Machine.read_io` / `Machine.write_io` in `machine.py` take the port AND a
companion (extra address) byte, so a call supplying fewer arguments is a
Python `TypeError`, modelled by passing an explicit argument list. -/

structure Machine where
  ram : Nat → Nat
  ioRead : Nat → Nat → Nat

/-- `Machine.read_memory_byte` (machine.py) through `MemoryDevice`/`RAM`. -/
def Machine.read_memory_byte (m : Machine) (addr : Int) : Nat :=
  if 0 ≤ addr ∧ addr ≤ 0xffff then m.ram addr.toNat else 0xff

/-- `Machine.read_memory_word` (machine.py): little-endian,
`RAM.read_word(offset) = ram[offset] | ram[offset+1] << 8`. -/
def Machine.read_memory_word (m : Machine) (addr : Int) : Nat :=
  if 0 ≤ addr ∧ addr ≤ 0xffff then
    m.ram addr.toNat ||| (m.ram (addr.toNat + 1)) <<< 8
  else 0xffff

/-- `Machine.write_memory_byte`: unmapped writes are ignored;
`RAM._check_value` rejects values outside [0, 0xff]. -/
def Machine.write_memory_byte (m : Machine) (addr : Int) (value : Nat) :
    Option Machine :=
  if 0 ≤ addr ∧ addr ≤ 0xffff then
    if value ≤ 0xff then
      some { m with ram := fun x => if x = addr.toNat then value else m.ram x }
    else none
  else some m

/-- `Machine.write_memory_word`: `RAM.write_word` checks the value against
[0, 0xffff], then stores `value & 0xff` at `offset` and `value >> 8` at
`offset + 1`. -/
def Machine.write_memory_word (m : Machine) (addr : Int) (value : Int) :
    Option Machine :=
  if 0 ≤ addr ∧ addr ≤ 0xffff then
    if 0 ≤ value ∧ value ≤ 0xffff then
      some { m with ram := (fun x =>
        if x = addr.toNat + 1 then value.toNat >>> 8
        else if x = addr.toNat then value.toNat &&& 0xff
        else m.ram x) }
    else none
  else some m

/-- `Machine.read_io(self, addr, extra_addr)` (machine.py) requires two
positional arguments; supplying a different number raises `TypeError`.
The argument list models the actual call made by the CPU. -/
def Machine.read_io_args (m : Machine) (args : List Nat) : Option Nat :=
  match args with
  | [addr, extra_addr] => some (m.ioRead addr extra_addr)
  | _ => none

/-- `Machine.write_io(self, addr, extra_addr, value)` (machine.py) requires
three positional arguments; supplying a different number raises `TypeError`.
The device's reaction is not modelled (the machine value is returned
unchanged), only the shape of the bus transaction. -/
def Machine.write_io_args (m : Machine) (args : List Nat) : Option Machine :=
  match args with
  | [_addr, _extra_addr, _value] => some m
  | _ => none

/-! ### The CPU register file — `cpu.py` -/

/-- The mutable state of `class CPU` (cpu.py).  `pc` and `sp` are Python
integers (they are updated by raw `+=`/`-=` on the fields, which does not
wrap), so they are modelled by `Int`.  8-bit registers are `Nat` (every
assignment in the source masks with `& 0xff` or is validated). -/
structure CPUState where
  pc : Int
  sp : Int
  a : Nat
  b : Nat
  c : Nat
  d : Nat
  e : Nat
  h : Nat
  l : Nat
  ix : Nat
  iy : Nat
  i : Nat
  r : Nat
  iff1 : Bool
  iff2 : Bool
  interrupt_mode : Nat
  interrupt_instructions : List Nat
  sign : Bool
  zero : Bool
  half_carry : Bool
  parity_overflow : Bool
  add_subtract : Bool
  carry : Bool
  cycles : Nat
  instruction_pfx : Option Nat
  current_inst : Nat
  displacement : Int

/-- `get_bc` (cpu.py): `(self._b << 8) | self._c`. -/
def CPUState.get_bc (s : CPUState) : Nat := (s.b <<< 8) ||| s.c

/-- `set_bc`: high byte into B, low byte into C. -/
def CPUState.set_bc (s : CPUState) (value : Nat) : CPUState :=
  { s with b := value >>> 8, c := value &&& 0xff }

/-- `get_de`. -/
def CPUState.get_de (s : CPUState) : Nat := (s.d <<< 8) ||| s.e

/-- `set_de`. -/
def CPUState.set_de (s : CPUState) (value : Nat) : CPUState :=
  { s with d := value >>> 8, e := value &&& 0xff }

/-- `get_hl`. -/
def CPUState.get_hl (s : CPUState) : Nat := (s.h <<< 8) ||| s.l

/-- `set_hl`. -/
def CPUState.set_hl (s : CPUState) (value : Nat) : CPUState :=
  { s with h := value >>> 8, l := value &&& 0xff }

/-- `get_f` (cpu.py): compose the F byte from the six flag booleans
(bits 7, 6, 4, 2, 1, 0; bits 3 and 5 are never set). -/
def CPUState.get_f (s : CPUState) : Nat :=
  let flags := 0
  let flags := if s.sign then set_bit flags 7 else flags
  let flags := if s.zero then set_bit flags 6 else flags
  let flags := if s.half_carry then set_bit flags 4 else flags
  let flags := if s.parity_overflow then set_bit flags 2 else flags
  let flags := if s.add_subtract then set_bit flags 1 else flags
  let flags := if s.carry then set_bit flags 0 else flags
  flags

/-- `set_f` (cpu.py): decompose a byte into the six flag booleans;
bits 3 and 5 of the argument are discarded. -/
def CPUState.set_f (s : CPUState) (value : Nat) : CPUState :=
  { s with
    sign := is_bit_set value 7
    zero := is_bit_set value 6
    half_carry := is_bit_set value 4
    parity_overflow := is_bit_set value 2
    add_subtract := is_bit_set value 1
    carry := is_bit_set value 0 }

/-- `get_af` (cpu.py): `(self._a << 8) | self.f`. -/
def CPUState.get_af (s : CPUState) : Nat := (s.a <<< 8) ||| s.get_f

/-- `set_af` (cpu.py): `self._a = value >> 8; self.f = value & 0xff`. -/
def CPUState.set_af (s : CPUState) (value : Nat) : CPUState :=
  { s.set_f (value &&& 0xff) with a := value >>> 8 }

/-- `_get_register_pair` (cpu.py): 0=BC, 1=DE, 2=HL, 3=SP.  SP is a Python
int, so the result is an `Int`. -/
def CPUState.get_register_pair (s : CPUState) (reg_pair : Nat) : Int :=
  if reg_pair = 0 then (s.get_bc : Int)
  else if reg_pair = 1 then (s.get_de : Int)
  else if reg_pair = 2 then (s.get_hl : Int)
  else s.sp

/-- `_set_register_pair` (cpu.py).  The SP case goes through `set_sp`,
whose `_validate_word_value` assertion all embedded call sites satisfy. -/
def CPUState.set_register_pair (s : CPUState) (reg_pair : Nat) (value : Nat) :
    CPUState :=
  if reg_pair = 0 then s.set_bc value
  else if reg_pair = 1 then s.set_de value
  else if reg_pair = 2 then s.set_hl value
  else { s with sp := (value : Int) }

/-! ### Combined CPU + machine state and the CPU memory functions -/

/-- A CPU together with the machine it is bound to. -/
structure Sys where
  cpu : CPUState
  mac : Machine

/-- `_get_register` (cpu.py): 0..5 = B,C,D,E,H,L; 6 = memory at HL;
7 = A.  (The Python function returns `None` for indices above 7; operand
indices come from a 3-bit field, so that branch is unreachable.) -/
def Sys.get_register (s : Sys) (reg_idx : Nat) : Nat :=
  if reg_idx = 0 then s.cpu.b
  else if reg_idx = 1 then s.cpu.c
  else if reg_idx = 2 then s.cpu.d
  else if reg_idx = 3 then s.cpu.e
  else if reg_idx = 4 then s.cpu.h
  else if reg_idx = 5 then s.cpu.l
  else if reg_idx = 6 then s.mac.read_memory_byte (s.cpu.get_hl : Int)
  else s.cpu.a

/-- `_set_register` (cpu.py); the `assert value <= 0xff` holds at every
embedded call site (values are masked byte values). -/
def Sys.set_register (s : Sys) (reg_idx : Nat) (value : Nat) : Option Sys :=
  if reg_idx = 0 then some { s with cpu := { s.cpu with b := value } }
  else if reg_idx = 1 then some { s with cpu := { s.cpu with c := value } }
  else if reg_idx = 2 then some { s with cpu := { s.cpu with d := value } }
  else if reg_idx = 3 then some { s with cpu := { s.cpu with e := value } }
  else if reg_idx = 4 then some { s with cpu := { s.cpu with h := value } }
  else if reg_idx = 5 then some { s with cpu := { s.cpu with l := value } }
  else if reg_idx = 6 then
    (s.mac.write_memory_byte (s.cpu.get_hl : Int) value).map
      (fun m => { s with mac := m })
  else some { s with cpu := { s.cpu with a := value } }

/-- `_get_index_reg` (cpu.py): IX under prefix 0xdd (or 0xddcb), IY
otherwise.  The handlers using it are only dispatched when an instruction
prefix has been recorded. -/
def Sys.get_index_reg (s : Sys) : Nat :=
  match s.cpu.instruction_pfx with
  | some p =>
    let q := if p < 0x100 then p else p >>> 8
    if q = 0xdd then s.cpu.ix else s.cpu.iy
  | none => s.cpu.iy

/-- `_fetch_next_byte` (cpu.py): with interrupts enabled and a non-empty
interrupt queue, pop the queue head (PC untouched); otherwise read the bus
at PC and advance PC by one. -/
def Sys.fetch_next_byte (s : Sys) : Nat × Sys :=
  match s.cpu.iff1, s.cpu.interrupt_instructions with
  | true, x :: rest =>
    (x, { s with cpu := { s.cpu with interrupt_instructions := rest } })
  | _, _ =>
    (s.mac.read_memory_byte s.cpu.pc,
     { s with cpu := { s.cpu with pc := s.cpu.pc + 1 } })

/-- `_fetch_next_word` (cpu.py): queue path requires at least two queued
bytes (`InvalidInstruction` otherwise); bus path reads a little-endian word
at PC and advances PC by two. -/
def Sys.fetch_next_word (s : Sys) : Option (Nat × Sys) :=
  match s.cpu.iff1, s.cpu.interrupt_instructions with
  | true, x :: rest =>
    match rest with
    | [] => none
    | y :: rest2 =>
      some (x ||| (y <<< 8),
        { s with cpu := { s.cpu with interrupt_instructions := rest2 } })
  | _, _ =>
    some (s.mac.read_memory_word s.cpu.pc,
      { s with cpu := { s.cpu with pc := s.cpu.pc + 2 } })

/-- `_fetch_displacement` (cpu.py): ALWAYS a bus read at PC (the interrupt
queue is not consulted), PC advances by one, bytes ≥ 0x80 are sign-extended
by subtracting 0x100. -/
def Sys.fetch_displacement (s : Sys) : Int × Sys :=
  let data := s.mac.read_memory_byte s.cpu.pc
  let s := { s with cpu := { s.cpu with pc := s.cpu.pc + 1 } }
  if data ≥ 0x80 then ((data : Int) - 0x100, s) else ((data : Int), s)

/-- `_push_to_stack` (cpu.py): `self._sp -= 2` (a raw field update, no
wrapping), then a word write at the new SP. -/
def Sys.push_to_stack (s : Sys) (value : Int) : Option Sys :=
  let s := { s with cpu := { s.cpu with sp := s.cpu.sp - 2 } }
  (s.mac.write_memory_word s.cpu.sp value).map (fun m => { s with mac := m })

/-- `schedule_interrupt` (cpu.py).  Dropped silently when IFF1 is clear;
mode 0 stores the supplied bytes, mode 1 stores `[0xff]`, mode 2 forms the
vector-table address from I and `data[0] & 0xfe`, reads the handler word
and stores a CALL encoding; other modes raise `InvalidInstruction`.
`data[0]` on an empty list is an `IndexError` (`none`). -/
def Sys.schedule_interrupt (s : Sys) (instructions : List Nat) : Option Sys :=
  if ¬ s.cpu.iff1 then some s
  else
    match s.cpu.interrupt_mode with
    | 0 => some { s with cpu := { s.cpu with interrupt_instructions := instructions } }
    | 1 => some { s with cpu := { s.cpu with interrupt_instructions := [0xff] } }
    | 2 =>
      match instructions with
      | [] => none
      | d0 :: _ =>
        let vector_addr := (s.cpu.i <<< 8) ||| (d0 &&& 0xfe)
        let handler_addr := s.mac.read_memory_word (vector_addr : Int)
        some { s with cpu := { s.cpu with
          interrupt_instructions := [0xcd, handler_addr &&& 0xff, handler_addr >>> 8] } }
    | _ => none

/-! ### ALU and instruction handlers -/

/-- `_count_bits` (cpu.py): population count via `n & (n - 1)`. -/
def count_bits (n : Nat) : Nat :=
  if n = 0 then 0 else 1 + count_bits (n &&& (n - 1))
termination_by n
decreasing_by
  simp_wf
  have h := Nat.and_le_right (n := n) (m := n - 1)
  omega

/-- `_alu_op` (cpu.py).  `op`: 0=ADD 1=ADC 2=SUB 3=SBC 4=AND 5=XOR 6=OR
7=CP.  The arithmetic is Python arbitrary-precision arithmetic; `res` can be
negative for SUB/SBC/CP, so it is an `Int` and the source's masks and
bitwise operators are the two's-complement `pyAnd`/`pyXor`. -/
def CPUState.alu_op (s : CPUState) (op : Nat) (value : Nat) : CPUState :=
  let a := s.a
  -- the op-specific branch: result plus the branch's flag updates
  let branch : Int × CPUState :=
    if op = 0 then
      let res : Int := a + value
      (res, { s with
        carry := decide (res > 0xff)
        half_carry := decide ((a &&& 0x0f) + (value &&& 0x0f) > 0x0f)
        add_subtract := false
        parity_overflow := decide (pyXor a value < 0x80 ∧ pyXor a res > 0x7f
          ∧ a ≠ 0 ∧ value ≠ 0) })
    else if op = 1 then
      let carry : Int := if s.carry then 1 else 0
      let res : Int := a + value + carry
      (res, { s with
        carry := decide (res > 0xff)
        half_carry := decide (((a &&& 0x0f : Nat) : Int) + ((value &&& 0x0f : Nat) : Int) + carry > 0x0f)
        add_subtract := false
        parity_overflow := decide (pyXor a (value + carry) < 0x80 ∧ pyXor a res > 0x7f
          ∧ a ≠ 0 ∧ (value : Int) + carry ≠ 0) })
    else if op = 2 ∨ op = 7 then
      let res : Int := a - value
      let neg_value : Int := pyNot value + 1
      (res, { s with
        carry := decide (res < 0)
        half_carry := decide ((a &&& 0x0f) + pyAnd neg_value 0x0f > 0x0f)
        add_subtract := true
        parity_overflow := decide (pyXor a neg_value < 0x80 ∧ pyXor a res > 0x7f
          ∧ a ≠ 0 ∧ neg_value ≠ 0) })
    else if op = 3 then
      let carry : Int := if s.carry then 1 else 0
      let res : Int := a - value - carry
      let neg_value : Int := pyNot value + 1
      (res, { s with
        carry := decide (res < 0)
        half_carry := decide ((a &&& 0x0f) + pyAnd (neg_value - carry) 0x0f > 0x0f)
        add_subtract := true
        parity_overflow := decide (pyXor a (neg_value - carry) < 0x80 ∧ pyXor a res > 0x7f
          ∧ a ≠ 0 ∧ neg_value - carry ≠ 0) })
    else if op = 4 then ((a &&& value : Nat), s)
    else if op = 5 then ((a ^^^ value : Nat), s)
    else if op = 6 then ((a ||| value : Nat), s)
    else (0, s)  -- unreachable: op is a 3-bit field (Python would raise NameError)
  let res : Nat := pyAnd branch.1 0xff
  let s := branch.2
  -- store result for all operations, except for CMP
  let s := if op ≠ 7 then { s with a := res } else s
  -- common flags of the logical operations
  let s := if 4 ≤ op ∧ op < 7 then
      { s with carry := false, half_carry := false
               parity_overflow := decide (count_bits res % 2 = 0)
               add_subtract := false }
    else s
  { s with zero := decide (res = 0), sign := decide (res &&& 0x80 ≠ 0) }

/-- `_adc_hl` (cpu.py): ADC HL,rp (ED page 0x4a/0x5a/0x6a/0x7a). -/
def Sys.adc_hl (s : Sys) : Option Sys :=
  let reg_pair := (s.cpu.current_inst &&& 0x30) >>> 4
  let hl := s.cpu.get_hl
  let value : Int := s.cpu.get_register_pair reg_pair
  let carry : Int := if s.cpu.carry then 1 else 0
  let res : Int := hl + value + carry
  let cpu := { s.cpu with
    sign := decide (pyAnd res 0x8000 ≠ 0)
    zero := decide (pyAnd res 0xffff = 0)
    parity_overflow := decide (pyXor hl value < 0x8000 ∧ pyXor hl res > 0x7fff
      ∧ hl ≠ 0 ∧ value ≠ 0)
    carry := decide (res ≥ 0x10000)
    half_carry := decide (((hl &&& 0xfff : Nat) : Int) + ((pyAnd value 0xfff : Nat) : Int) + carry ≥ 0x1000)
    add_subtract := false }
  let cpu := cpu.set_hl (pyAnd res 0xffff)
  some { s with cpu := { cpu with cycles := cpu.cycles + 15 } }

/-- `_sbc_hl` (cpu.py): SBC HL,rp (ED page 0x42/0x52/0x62/0x72).  Note the
source computes `self._carry = (res >= 0x10000)` and
`self._add_subtract = False`. -/
def Sys.sbc_hl (s : Sys) : Option Sys :=
  let reg_pair := (s.cpu.current_inst &&& 0x30) >>> 4
  let hl := s.cpu.get_hl
  let value : Int := s.cpu.get_register_pair reg_pair
  let carry : Int := if s.cpu.carry then 1 else 0
  let res : Int := hl - value - carry
  let neg_value : Nat := pyAnd (pyNot value + 1) 0xffff
  let cpu := { s.cpu with
    sign := decide (pyAnd res 0x8000 ≠ 0)
    zero := decide (pyAnd res 0xffff = 0)
    parity_overflow := decide (pyXor hl neg_value < 0x8000 ∧ pyXor hl res > 0x7fff
      ∧ hl ≠ 0 ∧ neg_value ≠ 0)
    carry := decide (res ≥ 0x10000)
    half_carry := decide (((hl &&& 0xfff : Nat) : Int) + ((neg_value &&& 0xfff : Nat) : Int) + carry ≥ 0x1000)
    add_subtract := false }
  let cpu := cpu.set_hl (pyAnd res 0xffff)
  some { s with cpu := { cpu with cycles := cpu.cycles + 15 } }

/-- `_get_bit` (cpu.py): BIT b,r (CB page 0x40..0x7f).  Only the Z flag and
the cycle counter are written. -/
def Sys.get_bit (s : Sys) : Option Sys :=
  let bit := (s.cpu.current_inst &&& 0x38) >>> 3
  let mask := 1 <<< bit
  let reg := s.cpu.current_inst &&& 0x07
  let value := s.get_register reg
  some { s with cpu := { s.cpu with
    zero := decide (value &&& mask = 0)
    cycles := s.cpu.cycles + (if reg = 6 then 12 else 8) } }

/-- `_ldir` (cpu.py): copy (HL)→(DE), increment HL and DE, decrement BC
(all masked to 16 bits), set H/N to 0 and P/V to (BC ≠ 0); while BC ≠ 0
rewind PC by 2 and add 21 cycles, else add 16. -/
def Sys.ldir (s : Sys) : Option Sys :=
  let value := s.mac.read_memory_byte (s.cpu.get_hl : Int)
  match s.mac.write_memory_byte (s.cpu.get_de : Int) value with
  | none => none
  | some m =>
    let cpu := s.cpu.set_hl ((s.cpu.get_hl + 1) &&& 0xffff)
    let cpu := cpu.set_de ((cpu.get_de + 1) &&& 0xffff)
    let cpu := cpu.set_bc (pyAnd ((cpu.get_bc : Int) - 1) 0xffff)
    let cpu := { cpu with
      half_carry := false
      parity_overflow := decide (cpu.get_bc ≠ 0)
      add_subtract := false }
    let cpu :=
      if cpu.get_bc ≠ 0 then { cpu with pc := cpu.pc - 2, cycles := cpu.cycles + 21 }
      else { cpu with cycles := cpu.cycles + 16 }
    some { s with mac := m, cpu := cpu }

/-- `_call` (cpu.py): fetch the target word, push PC, jump. -/
def Sys.call (s : Sys) : Option Sys :=
  match s.fetch_next_word with
  | none => none
  | some (addr, s1) =>
    match s1.push_to_stack s1.cpu.pc with
    | none => none
    | some s2 =>
      some { s2 with cpu := { s2.cpu with pc := (addr : Int), cycles := s2.cpu.cycles + 17 } }

/-- `_jr` (cpu.py): fetch the signed displacement, then `self._pc +=
displacement` (a raw field update, no wrapping). -/
def Sys.jr (s : Sys) : Option Sys :=
  let fetched := s.fetch_displacement
  let s1 := fetched.2
  some { s1 with cpu := { s1.cpu with
    pc := s1.cpu.pc + fetched.1, cycles := s1.cpu.cycles + 12 } }

/-- `_in` (cpu.py): `IN A,(n)`.  The source calls
`self._machine.read_io(addr)` with the port only, although
`Machine.read_io` (machine.py) requires `(addr, extra_addr)`: a Python
`TypeError` (`none`). -/
def Sys.in_op (s : Sys) : Option Sys :=
  let fetched := s.fetch_next_byte
  let addr := fetched.1
  let s1 := fetched.2
  match s1.mac.read_io_args [addr] with
  | none => none
  | some v =>
    some { s1 with cpu := { s1.cpu with a := v, cycles := s1.cpu.cycles + 11 } }

/-- `_out` (cpu.py): `OUT (n),A`.  The source calls
`self._machine.write_io(addr, self._a)` with two arguments, although
`Machine.write_io` (machine.py) requires `(addr, extra_addr, value)`:
a Python `TypeError` (`none`). -/
def Sys.out_op (s : Sys) : Option Sys :=
  let fetched := s.fetch_next_byte
  let addr := fetched.1
  let s1 := fetched.2
  (s1.mac.write_io_args [addr, s1.cpu.a]).map (fun m =>
    { s1 with mac := m, cpu := { s1.cpu with cycles := s1.cpu.cycles + 11 } })

/-- `_store_reg_to_indexed_mem` (cpu.py): `LD (IX+d),r` / `LD (IY+d),r`.
The displacement comes from `_fetch_displacement` (a bus read at PC, never
the interrupt queue). -/
def Sys.store_reg_to_indexed_mem (s : Sys) : Option Sys :=
  let fetched := s.fetch_displacement
  let displacement := fetched.1
  let s1 := fetched.2
  let src := s1.cpu.current_inst &&& 0x07
  let addr : Int := (s1.get_index_reg : Int) + displacement
  let value := s1.get_register src
  (s1.mac.write_memory_byte addr value).map (fun m =>
    { s1 with mac := m, cpu := { s1.cpu with cycles := s1.cpu.cycles + 19 } })

/-! ### Dispatch and `step`

The source builds seven 256-entry handler tables.  The partial map below
embeds exactly the slots the verified claims exercise, each checked against
`_init_*_instruction_table` in cpu.py (main 0xcd/0xdb/0xd3/0x18; ED
0x42/0x52/0x62/0x72 = `_sbc_hl`, 0x4a/0x5a/0x6a/0x7a = `_adc_hl`,
0xb0 = `_ldir`; CB 0x40..0x7f = `_get_bit`; DD/FD 0x70..0x75 and 0x77 =
`_store_reg_to_indexed_mem`).  All other slots are outside the scope of
this embedding and map to `none`. -/

/-- The handler table lookup for the opcodes exercised by the claims. -/
def instruction_for (pfx : Option Nat) (inst : Nat) : Option (Sys → Option Sys) :=
  match pfx with
  | none =>
    if inst = 0xcd then some Sys.call
    else if inst = 0xdb then some Sys.in_op
    else if inst = 0xd3 then some Sys.out_op
    else if inst = 0x18 then some Sys.jr
    else none
  | some 0xed =>
    if inst = 0x42 ∨ inst = 0x52 ∨ inst = 0x62 ∨ inst = 0x72 then some Sys.sbc_hl
    else if inst = 0x4a ∨ inst = 0x5a ∨ inst = 0x6a ∨ inst = 0x7a then some Sys.adc_hl
    else if inst = 0xb0 then some Sys.ldir
    else none
  | some 0xcb =>
    if 0x40 ≤ inst ∧ inst ≤ 0x7f then some Sys.get_bit else none
  | some 0xdd =>
    if (0x70 ≤ inst ∧ inst ≤ 0x75) ∨ inst = 0x77 then some Sys.store_reg_to_indexed_mem
    else none
  | some 0xfd =>
    if (0x70 ≤ inst ∧ inst ≤ 0x75) ∨ inst = 0x77 then some Sys.store_reg_to_indexed_mem
    else none
  | _ => none

/-- `step` (cpu.py): fetch (possibly from the interrupt queue), parse
prefix bytes (a second byte 0xcb after any prefix starts the double-prefix
form: displacement byte, then opcode), record prefix/opcode/displacement,
dispatch, execute.  An empty dispatch slot raises `InvalidInstruction`. -/
def Sys.step (s : Sys) : Option Sys :=
  let f0 := s.fetch_next_byte
  let b := f0.1
  let s1 := f0.2
  if b = 0xed ∨ b = 0xcb ∨ b = 0xdd ∨ b = 0xfd then
    let f1 := s1.fetch_next_byte
    let i1 := f1.1
    let s2 := f1.2
    if i1 = 0xcb then
      let pfx := (b <<< 8) ||| i1
      let f2 := s2.fetch_displacement
      let f3 := f2.2.fetch_next_byte
      let i2 := f3.1
      let s4 := f3.2
      let s5 := { s4 with cpu := { s4.cpu with
        instruction_pfx := some pfx, displacement := f2.1, current_inst := i2 } }
      match instruction_for (some pfx) i2 with
      | some f => f s5
      | none => none
    else
      let s5 := { s2 with cpu := { s2.cpu with
        instruction_pfx := some b, current_inst := i1 } }
      match instruction_for (some b) i1 with
      | some f => f s5
      | none => none
  else
    let s5 := { s1 with cpu := { s1.cpu with
      instruction_pfx := none, current_inst := b } }
    match instruction_for none b with
    | some f => f s5
    | none => none

/-! ### Concrete base states (used by witnesses and counterexamples) -/

/-- A CPU in its post-`reset` configuration (cpu.py `reset`). -/
def cpu0 : CPUState :=
  { pc := 0, sp := 0, a := 0, b := 0, c := 0, d := 0, e := 0, h := 0, l := 0,
    ix := 0, iy := 0, i := 0, r := 0, iff1 := false, iff2 := false,
    interrupt_mode := 0, interrupt_instructions := [],
    sign := false, zero := false, half_carry := false, parity_overflow := false,
    add_subtract := false, carry := false, cycles := 0,
    instruction_pfx := none, current_inst := 0, displacement := 0 }

/-- A machine whose RAM is zero-filled and whose I/O devices answer 0. -/
def mac0 : Machine := { ram := fun _ => 0, ioRead := fun _ _ => 0 }

/-! ### Arithmetic support lemmas -/

theorem and_255_eq_mod (x : Nat) : x &&& 0xff = x % 256 := by
  have h := Nat.and_pow_two_sub_one_eq_mod x 8
  norm_num at h
  exact h

theorem and_65535_eq_mod (x : Nat) : x &&& 0xffff = x % 65536 := by
  have h := Nat.and_pow_two_sub_one_eq_mod x 16
  norm_num at h
  exact h

theorem shr8_eq_div (x : Nat) : x >>> 8 = x / 256 := by
  have h := Nat.shiftRight_eq_div_pow x 8
  norm_num at h
  exact h

theorem lor_shl8 (x y : Nat) (hy : y ≤ 255) : (x <<< 8) ||| y = 256 * x + y := by
  have h := Nat.mul_add_lt_is_or (b := y) (i := 8) (by omega) x
  rw [Nat.shiftLeft_eq]
  norm_num at h ⊢
  rw [Nat.mul_comm x 256]
  omega

/-- Writing a 16-bit value through a high/low byte pair and reading the pair
back is the identity (for any `Nat`, by div/mod arithmetic). -/
theorem pair_roundtrip (v : Nat) : ((v >>> 8) <<< 8) ||| (v &&& 0xff) = v := by
  rw [and_255_eq_mod, shr8_eq_div, lor_shl8 _ _ (by omega)]
  omega

/-- `pyAnd` with an all-ones 16-bit mask is reduction modulo 2^16. -/
theorem pyAnd_65535 (x : Int) : pyAnd x 0xffff = ((x % 65536).toNat) := by
  unfold pyAnd pyNot
  by_cases hx : 0 ≤ x
  · rw [if_pos hx, and_65535_eq_mod]
    omega
  · rw [if_neg hx, Nat.land_comm, and_65535_eq_mod]
    omega

/-- `pyAnd` of a non-negative integer is plain `Nat` AND. -/
theorem pyAnd_ofNat (n m : Nat) : pyAnd (n : Int) m = n &&& m := by
  simp [pyAnd]

/-- `pyXor` of two non-negative integers is plain `Nat` XOR. -/
theorem pyXor_ofNat (n k : Nat) : pyXor (n : Int) (k : Int) = ((n ^^^ k : Nat) : Int) := by
  simp [pyXor]

/-- XOR of a non-negative with a negative Python integer is negative. -/
theorem pyXor_neg_right {x y : Int} (hx : 0 ≤ x) (hy : y < 0) : pyXor x y < 0 := by
  unfold pyXor pyNot
  rw [if_pos hx, if_neg (by omega)]
  omega

/-- For bytes, comparison against 127 reads bit 7. -/
theorem lt128_iff_testBit (x : Nat) (h : x < 256) : 127 < x ↔ x.testBit 7 = true := by
  rw [Nat.testBit_to_div_mod]
  simp only [decide_eq_true_eq]
  omega

/-- Bit-7 reading of `Nat.xor` on bytes. -/
theorem xor_gt_127_iff (a r : Nat) (ha : a < 256) (hr : r < 256) :
    127 < (a ^^^ r) ↔ ((127 < a) ↔ (r ≤ 127)) := by
  have hx : a ^^^ r < 256 := by
    have := Nat.xor_lt_two_pow (n := 8) (x := a) (y := r) (by omega) (by omega)
    omega
  rw [lt128_iff_testBit _ hx, Nat.testBit_xor,
    lt128_iff_testBit _ ha]
  have hr7 := (lt128_iff_testBit r hr)
  rcases h1 : a.testBit 7 <;> rcases h2 : r.testBit 7 <;>
    simp [h1, h2] at hr7 ⊢ <;> omega

/-- A byte AND a single-bit mask vanishes exactly when that bit is clear. -/
theorem and_shl_one_eq_zero (x b : Nat) :
    x &&& (1 <<< b) = 0 ↔ x.testBit b = false := by
  rw [Nat.one_shiftLeft, Nat.and_two_pow]
  rcases h : x.testBit b <;> simp [h]

/-- Composing `get_f` after `set_f` keeps exactly bits 7,6,4,2,1,0 — the
mask 0xd7; bits 3 and 5 of the written byte are lost. -/
theorem get_f_set_f (s : CPUState) (v : Nat) (hv : v < 256) :
    (s.set_f v).get_f = v &&& 0xd7 := by
  have key : ∀ w : Nat, w < 256 → ((cpu0.set_f w).get_f = w &&& 0xd7) := by decide
  have hs : (s.set_f v).get_f = (cpu0.set_f v).get_f := rfl
  rw [hs]
  exact key v hv

/-- Characterization of the source's SUB/CP overflow expression (cpu.py
`_alu_op`, op 2/7) over byte operands: it holds exactly when the minuend has
bit 7 set, the subtrahend is non-zero, and the difference is a non-negative
value below 128. -/
theorem sub_pv_iff (a v : Nat) (ha : a < 256) (hv : v < 256) :
    (pyXor (a : Int) (pyNot (v : Int) + 1) < 0x80
      ∧ pyXor (a : Int) ((a : Int) - (v : Int)) > 0x7f
      ∧ a ≠ 0 ∧ pyNot (v : Int) + 1 ≠ 0)
    ↔ (128 ≤ a ∧ v ≠ 0 ∧ v ≤ a ∧ a - v ≤ 127) := by
  unfold pyNot
  constructor
  · rintro ⟨h1, h2, h3, h4⟩
    have hv0 : v ≠ 0 := by omega
    have hva : v ≤ a := by
      by_contra hlt
      have hneg : (a : Int) - (v : Int) < 0 := by omega
      have := pyXor_neg_right (x := (a : Int)) (by omega) hneg
      omega
    have hcast : (a : Int) - (v : Int) = ((a - v : Nat) : Int) := by omega
    rw [hcast, pyXor_ofNat] at h2
    have h2n : 127 < a ^^^ (a - v) := by exact_mod_cast h2
    have hiff := (xor_gt_127_iff a (a - v) ha (by omega)).mp h2n
    omega
  · rintro ⟨h128, hv0, hva, hsub⟩
    have hcast : (a : Int) - (v : Int) = ((a - v : Nat) : Int) := by omega
    refine ⟨?_, ?_, by omega, by omega⟩
    · have := pyXor_neg_right (x := (a : Int)) (y := -(v : Int) - 1 + 1)
        (by omega) (by omega)
      omega
    · rw [hcast, pyXor_ofNat]
      have := (xor_gt_127_iff a (a - v) ha (by omega)).mpr (by omega)
      exact_mod_cast this

/-- `get_sp` / `set_sp` (cpu.py); `set_sp` asserts the value is a word. -/
def CPUState.set_sp (s : CPUState) (value : Nat) : CPUState :=
  { s with sp := (value : Int) }

/-- The spec's two's-complement reading of a byte (refinement comparison
definition: follows the spec's words, not the source). -/
def signed8 (x : Nat) : Int := if 128 ≤ x then (x : Int) - 256 else (x : Int)

/-- The spec's signed-overflow predicate for the 8-bit subtraction `a - v`
(refinement comparison definition: follows the spec's words): the signed
result leaves the representable range [-128, 127]. -/
def spec_overflow_sub (a v : Nat) : Prop :=
  signed8 a - signed8 v < -128 ∨ 127 < signed8 a - signed8 v

instance (a v : Nat) : Decidable (spec_overflow_sub a v) := by
  unfold spec_overflow_sub
  infer_instance

/-! ### Concrete systems used by counterexamples and witnesses -/

/-- BIT 0,A with A = 1, entered with H clear and N set. -/
def sysC5 : Sys :=
  { cpu := { cpu0 with current_inst := 0x47, a := 1, add_subtract := true }, mac := mac0 }

/-- The state `sysC5.get_bit` produces. -/
def sysC5' : Sys :=
  { sysC5 with cpu := { sysC5.cpu with zero := false, cycles := 8 } }

/-- IFF1 set, interrupt mode 0, empty queue. -/
def sysC9 : Sys :=
  { cpu := { cpu0 with iff1 := true, interrupt_mode := 0 }, mac := mac0 }

/-- `sysC9` after `schedule_interrupt([0x01])`. -/
def sysC9' : Sys :=
  { sysC9 with cpu := { sysC9.cpu with interrupt_instructions := [0x01] } }

/-- IFF1 set and a non-empty interrupt queue, with a displacement byte 0x05
in memory at PC. -/
def sysC10 : Sys :=
  { cpu := { cpu0 with iff1 := true, interrupt_instructions := [9] },
    mac := { mac0 with ram := fun x => if x = 0 then 0x05 else 0 } }

/-- SP = 0, about to PUSH. -/
def sysC3p : Sys := { cpu := { cpu0 with sp := 0 }, mac := mac0 }

/-- PC = 0xFFFF, about to fetch. -/
def sysC3f : Sys := { cpu := { cpu0 with pc := 0xffff }, mac := mac0 }

/-- PC = 0, JR with displacement byte 0xF0 (= −16). -/
def sysC3j : Sys :=
  { cpu := cpu0, mac := { mac0 with ram := fun x => if x = 0 then 0xf0 else 0 } }

/-- `IN A,(0x42)` at PC = 0 with A = 0x34 (mirrors the repository's
`test_in`). -/
def sysC6in : Sys :=
  { cpu := { cpu0 with a := 0x34 },
    mac := { ram := fun x => if x = 0 then 0xdb else if x = 1 then 0x42 else 0,
             ioRead := fun _ _ => 0x55 } }

/-- `OUT (0x42),A` at PC = 0 with A = 0x55 (mirrors the repository's
`test_out`). -/
def sysC6out : Sys :=
  { cpu := { cpu0 with a := 0x55 },
    mac := { ram := fun x => if x = 0 then 0xd3 else if x = 1 then 0x42 else 0,
             ioRead := fun _ _ => 0 } }

/-! ### Claim C5 — BIT b,r -/

/-- C5 counterexample: executing BIT 0,A (operand bit set) from a state with
H = 0 and N = 1 leaves H = 0 and N = 1, falsifying the claim that BIT sets
H to 1 and N to 0. -/
theorem C5_counterexample :
    (sysC5.get_bit).map (fun t => (t.cpu.half_carry, t.cpu.add_subtract))
        = some (false, true)
    ∧ (sysC5.get_bit).map (fun t => (t.cpu.half_carry, t.cpu.add_subtract))
        ≠ some (true, false) := by
  exact ⟨rfl, by decide⟩

/-- C5 (amended): BIT b,r sets Z iff bit b of the operand is 0 and leaves
H, N, the operand registers, the accumulator and the machine memory
unchanged (the source never writes H or N in `_get_bit`). -/
theorem C5_bit_flags (s s' : Sys) (h : s.get_bit = some s') :
    (s'.cpu.zero = true ↔
      (s.get_register (s.cpu.current_inst &&& 0x07)).testBit
        ((s.cpu.current_inst &&& 0x38) >>> 3) = false)
    ∧ s'.cpu.half_carry = s.cpu.half_carry
    ∧ s'.cpu.add_subtract = s.cpu.add_subtract
    ∧ s'.mac = s.mac
    ∧ s'.cpu.a = s.cpu.a ∧ s'.cpu.b = s.cpu.b ∧ s'.cpu.c = s.cpu.c
    ∧ s'.cpu.d = s.cpu.d ∧ s'.cpu.e = s.cpu.e ∧ s'.cpu.h = s.cpu.h
    ∧ s'.cpu.l = s.cpu.l
    ∧ s'.cpu.cycles = s.cpu.cycles
        + (if s.cpu.current_inst &&& 0x07 = 6 then 12 else 8) := by
  simp only [Sys.get_bit, Option.some.injEq] at h
  subst h
  refine ⟨?_, rfl, rfl, rfl, rfl, rfl, rfl, rfl, rfl, rfl, rfl, rfl⟩
  simp only [decide_eq_true_eq]
  exact and_shl_one_eq_zero _ _

/-- C5 witness: the amended theorem applied at `sysC5`. -/
theorem C5_witness : sysC5'.cpu.half_carry = sysC5.cpu.half_carry :=
  (C5_bit_flags sysC5 sysC5' rfl).2.1

/-! ### Claim C9 — a second `schedule_interrupt` replaces the queue -/

/-- C9: a successful `schedule_interrupt` only replaces the interrupt
queue, so a second call gives exactly what it would have given on the
original state — the first call's bytes are discarded, never appended —
and in mode 0 the queue afterwards is exactly the second call's bytes. -/
theorem C9_schedule_replaces (s s1 : Sys) (d1 d2 : List Nat)
    (h : s.schedule_interrupt d1 = some s1) :
    s1.schedule_interrupt d2 = s.schedule_interrupt d2
    ∧ (s.cpu.iff1 = true → s.cpu.interrupt_mode = 0 →
        s1.schedule_interrupt d2
          = some { s1 with cpu := { s1.cpu with interrupt_instructions := d2 } }) := by
  unfold Sys.schedule_interrupt at h ⊢
  by_cases hiff : s.cpu.iff1 = true
  · rcases hmode : s.cpu.interrupt_mode with _ | _ | _ | k
    · simp only [hiff, hmode, not_true, if_false, Option.some.injEq] at h
      subst h
      simp [hiff, hmode]
    · simp only [hiff, hmode, not_true, if_false, Option.some.injEq] at h
      subst h
      simp [hiff, hmode]
    · rcases d1 with _ | ⟨x, xs⟩
      · simp [hiff, hmode] at h
      · simp only [hiff, hmode, not_true, if_false, Option.some.injEq] at h
        subst h
        rcases d2 with _ | ⟨y, ys⟩ <;> simp [hiff, hmode]
    · simp [hiff, hmode] at h
  · have hiff' : s.cpu.iff1 = false := by
      cases hb : s.cpu.iff1
      · rfl
      · exact absurd hb hiff
    simp only [hiff', Bool.false_eq_true, not_false_iff, if_true,
      Option.some.injEq] at h
    subst h
    simp [hiff']

/-- C9 witness: the theorem applied at a concrete mode-0 state. -/
theorem C9_witness :
    sysC9'.schedule_interrupt [0x02, 0x03] = sysC9.schedule_interrupt [0x02, 0x03] :=
  (C9_schedule_replaces sysC9 sysC9' [0x01] [0x02, 0x03] rfl).1

/-! ### Claim C10 — displacement fetches never consume the queue -/

theorem fetch_displacement_snd (s : Sys) :
    (s.fetch_displacement).2 = { s with cpu := { s.cpu with pc := s.cpu.pc + 1 } } := by
  simp only [Sys.fetch_displacement]
  split_ifs <;> rfl

theorem fetch_displacement_fst (s : Sys) :
    (s.fetch_displacement).1 =
      (if s.mac.read_memory_byte s.cpu.pc ≥ 0x80
       then (s.mac.read_memory_byte s.cpu.pc : Int) - 0x100
       else (s.mac.read_memory_byte s.cpu.pc : Int)) := by
  simp only [Sys.fetch_displacement]
  split_ifs <;> rfl

/-- C10: `_fetch_displacement` always reads the bus at PC and advances PC by
one, leaving the interrupt queue and the machine untouched, for EVERY state
(including IFF1 set with a non-empty queue); `LD (IX/IY+d),r` therefore
preserves the queue; by contrast, `_fetch_next_byte` with IFF1 set and a
non-empty queue pops the queue and does not advance PC. -/
theorem C10_displacement_from_memory (s : Sys) :
    ((s.fetch_displacement).2.cpu.interrupt_instructions = s.cpu.interrupt_instructions
      ∧ (s.fetch_displacement).2.cpu.pc = s.cpu.pc + 1
      ∧ (s.fetch_displacement).2.mac = s.mac
      ∧ (s.fetch_displacement).1 =
          (if s.mac.read_memory_byte s.cpu.pc ≥ 0x80
           then (s.mac.read_memory_byte s.cpu.pc : Int) - 0x100
           else (s.mac.read_memory_byte s.cpu.pc : Int)))
    ∧ (∀ s', s.store_reg_to_indexed_mem = some s' →
        s'.cpu.interrupt_instructions = s.cpu.interrupt_instructions
        ∧ s'.cpu.pc = s.cpu.pc + 1)
    ∧ (∀ x rest, s.cpu.iff1 = true → s.cpu.interrupt_instructions = x :: rest →
        (s.fetch_next_byte).1 = x
        ∧ (s.fetch_next_byte).2.cpu.interrupt_instructions = rest
        ∧ (s.fetch_next_byte).2.cpu.pc = s.cpu.pc) := by
  refine ⟨?_, ?_, ?_⟩
  · rw [fetch_displacement_snd, fetch_displacement_fst]
    exact ⟨rfl, rfl, rfl, rfl⟩
  · intro s' h
    simp only [Sys.store_reg_to_indexed_mem, fetch_displacement_snd] at h
    rw [Option.map_eq_some'] at h
    obtain ⟨m, _, hf⟩ := h
    subst hf
    exact ⟨rfl, rfl⟩
  · intro x rest h1 h2
    unfold Sys.fetch_next_byte
    rw [h1, h2]
    exact ⟨rfl, rfl, rfl⟩

/-- C10 witness: the theorem applied at a state with IFF1 set and a
non-empty queue. -/
theorem C10_witness :
    (sysC10.fetch_displacement).2.cpu.interrupt_instructions
        = sysC10.cpu.interrupt_instructions
    ∧ (sysC10.fetch_next_byte).1 = 9 :=
  ⟨(C10_displacement_from_memory sysC10).1.1,
   ((C10_displacement_from_memory sysC10).2.2 9 [] rfl rfl).1⟩

/-! ### Claim C3 — PC/SP writes do not wrap -/

/-- C3 counterexample: PUSH with SP = 0 leaves SP = −2 (not 65534);
an instruction fetch at PC = 0xFFFF leaves PC = 0x10000 (not 0); a backward
JR (displacement −16) from PC = 0 leaves PC = −15 (not 65521). -/
theorem C3_counterexample :
    ((sysC3p.push_to_stack 0x1234).map (fun t => t.cpu.sp) = some (-2)
      ∧ (-2 : Int) ≠ 65534)
    ∧ ((sysC3f.fetch_next_byte).2.cpu.pc = 0x10000 ∧ (0x10000 : Int) ≠ 0)
    ∧ ((sysC3j.jr).map (fun t => t.cpu.pc) = some (-15)
      ∧ (-15 : Int) ≠ 65521) := by
  exact ⟨⟨rfl, by decide⟩, ⟨rfl, by decide⟩, ⟨rfl, by decide⟩⟩

/-- C3 (amended): the source does NOT wrap PC or SP on these paths.
`_push_to_stack` sets SP to exactly SP − 2 as a plain integer (for
SP ∈ {0, 1} this is negative, and the stack write is then silently dropped
as unmapped); a bus instruction fetch sets PC to exactly PC + 1 (0xFFFF
becomes 0x10000); `_jr` sets PC to exactly PC + 1 + d with the signed
displacement d, which is negative for a backward jump from a small PC. -/
theorem C3_no_wrap (s : Sys) (v : Int) :
    (∀ s1, s.push_to_stack v = some s1 → s1.cpu.sp = s.cpu.sp - 2)
    ∧ ((s.cpu.iff1 = false ∨ s.cpu.interrupt_instructions = []) →
        (s.fetch_next_byte).2.cpu.pc = s.cpu.pc + 1)
    ∧ (∀ s1, s.jr = some s1 → s1.cpu.pc = s.cpu.pc + 1 +
        (if s.mac.read_memory_byte s.cpu.pc ≥ 0x80
         then (s.mac.read_memory_byte s.cpu.pc : Int) - 0x100
         else (s.mac.read_memory_byte s.cpu.pc : Int))) := by
  refine ⟨?_, ?_, ?_⟩
  · intro s1 h
    simp only [Sys.push_to_stack] at h
    rw [Option.map_eq_some'] at h
    obtain ⟨m, _, hf⟩ := h
    subst hf
    rfl
  · intro hq
    unfold Sys.fetch_next_byte
    rcases hq with hq | hq
    · rw [hq]
    · rw [hq]
      rcases hb : s.cpu.iff1 <;> rfl
  · intro s1 h
    simp only [Sys.jr, fetch_displacement_snd, fetch_displacement_fst,
      Option.some.injEq] at h
    subst h
    rfl

/-- C3 witness: the amended theorem applied at SP = 0 / the JR state. -/
theorem C3_witness :
    ((sysC3p.cpu.iff1 = false ∨ sysC3p.cpu.interrupt_instructions = []) →
      (sysC3p.fetch_next_byte).2.cpu.pc = sysC3p.cpu.pc + 1) :=
  (C3_no_wrap sysC3p 0).2.1

/-! ### Claim C6 — I/O instructions and the companion byte -/

/-- C6: `Machine.read_io`/`Machine.write_io` (machine.py) require the port
AND the companion byte (a two-argument read, a three-argument write), but
`cpu.py` calls them with the companion byte missing, so executing
`IN A,(n)` or `OUT (n),A` fails with a `TypeError` before any device is
reached — the bus never receives the companion byte (the repository's own
`test_in`/`test_out` assert the two- and three-argument forms). -/
theorem C6_io_companion_missing :
    Sys.step sysC6in = none
    ∧ Sys.step sysC6out = none
    ∧ Machine.read_io_args sysC6in.mac [0x42] = none
    ∧ Machine.read_io_args sysC6in.mac [0x42, 0x34] = some 0x55
    ∧ Machine.write_io_args sysC6out.mac [0x42, 0x55] = none
    ∧ Machine.write_io_args sysC6out.mac [0x42, 0x55, 0x55] = some sysC6out.mac := by
  exact ⟨rfl, rfl, rfl, rfl, rfl, rfl⟩

/-! ### Claim C4 — register-pair round trips -/

theorem byte_d7 : ∀ v : Nat, v < 256 → ((v &&& 0xd7 = v) ↔ (v &&& 0x28 = 0)) := by
  decide

/-- C4 counterexample: writing 0x0008 through AF (low byte has bit 3 set)
reads back as 0x0000, not 0x0008. -/
theorem C4_counterexample :
    (cpu0.set_af 0x0008).get_af = 0 ∧ (cpu0.set_af 0x0008).get_af ≠ 0x0008 := by
  exact ⟨rfl, by decide⟩

/-- C4 (amended): for every word w ≤ 0xffff, the BC/DE/HL round trips are
exact with the correct constituent bytes, and SP stores w exactly; for AF
the high byte (A) is exact but F keeps only bits 7,6,4,2,1,0 of the low
byte (mask 0xd7), so the AF round trip returns
`256 * (w >> 8) + ((w & 0xff) & 0xd7)` and is the identity exactly when
bits 3 and 5 of the low byte are clear. -/
theorem C4_roundtrip (s : CPUState) (w : Nat) (_hw : w ≤ 0xffff) :
    ((s.set_bc w).get_bc = w ∧ (s.set_bc w).b = w >>> 8 ∧ (s.set_bc w).c = w &&& 0xff)
    ∧ ((s.set_de w).get_de = w ∧ (s.set_de w).d = w >>> 8 ∧ (s.set_de w).e = w &&& 0xff)
    ∧ ((s.set_hl w).get_hl = w ∧ (s.set_hl w).h = w >>> 8 ∧ (s.set_hl w).l = w &&& 0xff)
    ∧ (s.set_sp w).sp = (w : Int)
    ∧ ((s.set_af w).a = w >>> 8 ∧ (s.set_af w).get_f = (w &&& 0xff) &&& 0xd7)
    ∧ (s.set_af w).get_af = 256 * (w >>> 8) + ((w &&& 0xff) &&& 0xd7)
    ∧ ((s.set_af w).get_af = w ↔ w &&& 0x28 = 0) := by
  have hwlt : w &&& 0xff < 256 := by
    rw [and_255_eq_mod]
    omega
  have hf : (s.set_af w).get_f = (w &&& 0xff) &&& 0xd7 := by
    show (s.set_f (w &&& 0xff)).get_f = (w &&& 0xff) &&& 0xd7
    exact get_f_set_f s _ hwlt
  have hle : (w &&& 0xff) &&& 0xd7 ≤ 255 :=
    le_trans Nat.and_le_right (by norm_num)
  have hval : (s.set_af w).get_af = 256 * (w >>> 8) + ((w &&& 0xff) &&& 0xd7) := by
    show ((w >>> 8) <<< 8) ||| (s.set_af w).get_f = _
    rw [hf, lor_shl8 _ _ hle]
  have hmask : (w &&& 0xff) &&& 0x28 = w &&& 0x28 := by
    rw [Nat.and_assoc]
    rfl
  have hd7le : (w &&& 0xff) &&& 0xd7 ≤ w &&& 0xff := Nat.and_le_left
  refine ⟨⟨pair_roundtrip w, rfl, rfl⟩, ⟨pair_roundtrip w, rfl, rfl⟩,
    ⟨pair_roundtrip w, rfl, rfl⟩, rfl, ⟨rfl, hf⟩, hval, ?_⟩
  rw [hval]
  have hdiv : w >>> 8 = w / 256 := shr8_eq_div w
  have hmod : w &&& 0xff = w % 256 := and_255_eq_mod w
  constructor
  · intro he
    have hfix : (w &&& 0xff) &&& 0xd7 = w &&& 0xff := by omega
    have := (byte_d7 (w &&& 0xff) hwlt).mp hfix
    omega
  · intro hz
    have hfix := (byte_d7 (w &&& 0xff) hwlt).mpr (by omega)
    omega

/-- C4 witness: the amended theorem applied at w = 0xbeef. -/
theorem C4_witness :
    (cpu0.set_bc 0xbeef).get_bc = 0xbeef
    ∧ ((cpu0.set_af 0xbeef).get_af = 0xbeef ↔ (0xbeef &&& 0x28 : Nat) = 0) := by
  have h := C4_roundtrip cpu0 0xbeef (by norm_num)
  exact ⟨h.1.1, h.2.2.2.2.2.2⟩

/-! ### Claim C2 — SUB/CP flags -/

/-- Accumulator 0x10, as in the C2 counterexample. -/
def cpuC2 : CPUState := { cpu0 with a := 0x10 }

/-- C2 counterexample: for A = 0x10, CP 0x90 (signed 16 − (−112) = 128,
which overflows past 127, so the claim demands P/V = 1) the source computes
P/V = 0; same for SUB. -/
theorem C2_counterexample :
    (cpuC2.alu_op 7 0x90).parity_overflow = false
    ∧ (cpuC2.alu_op 2 0x90).parity_overflow = false
    ∧ spec_overflow_sub 0x10 0x90
    ∧ (cpuC2.alu_op 7 0x90).a = cpuC2.a := by
  exact ⟨rfl, rfl, by decide, rfl⟩

/-- C2 (amended): SUB v / CP v set C iff a − v < 0 and N to 1, and CP
leaves A unchanged while setting all flags exactly as SUB; but P/V is set
by the source's own predicate — bit 7 of a set, v non-zero, and
0 ≤ a − v ≤ 127 — which is not the signed-overflow predicate of the
claim. -/
theorem C2_sub_cp_flags (s : CPUState) (v : Nat) (ha : s.a ≤ 255) (hv : v ≤ 255) :
    ((s.alu_op 2 v).carry = true ↔ s.a < v)
    ∧ (s.alu_op 2 v).add_subtract = true
    ∧ ((s.alu_op 2 v).parity_overflow = true ↔
        (128 ≤ s.a ∧ v ≠ 0 ∧ v ≤ s.a ∧ s.a - v ≤ 127))
    ∧ (s.alu_op 7 v) = { s.alu_op 2 v with a := s.a }
    ∧ (s.alu_op 7 v).a = s.a := by
  have hcarry : (s.alu_op 2 v).carry = decide ((s.a : Int) - (v : Int) < 0) := rfl
  have hpv : (s.alu_op 2 v).parity_overflow =
      decide (pyXor (s.a : Int) (pyNot (v : Int) + 1) < 0x80
        ∧ pyXor (s.a : Int) ((s.a : Int) - (v : Int)) > 0x7f
        ∧ s.a ≠ 0 ∧ pyNot (v : Int) + 1 ≠ 0) := rfl
  have hn : (s.alu_op 2 v).add_subtract = true := rfl
  have hcp : (s.alu_op 7 v) = { s.alu_op 2 v with a := s.a } := rfl
  refine ⟨?_, hn, ?_, hcp, ?_⟩
  · rw [hcarry]
    simp only [decide_eq_true_eq]
    omega
  · rw [hpv]
    simp only [decide_eq_true_eq]
    exact sub_pv_iff s.a v (by omega) (by omega)
  · rw [hcp]

/-- C2 witness: the amended theorem applied at A = 0x10, v = 0x90. -/
theorem C2_witness :
    ((cpuC2.alu_op 2 0x90).carry = true ↔ cpuC2.a < 0x90)
    ∧ (cpuC2.alu_op 7 0x90).a = cpuC2.a := by
  have h := C2_sub_cp_flags cpuC2 0x90 (by decide) (by decide)
  exact ⟨h.1, h.2.2.2.2⟩

/-! ### Claim C1 — ADC HL,rp / SBC HL,rp flags -/

/-- SBC HL,DE with HL=0xabcd, DE=0xef12, C=1 (the repository's own
`test_sbc_hl_de` input). -/
def sysC1 : Sys :=
  { cpu := { cpu0 with
               h := 0xab, l := 0xcd, d := 0xef, e := 0x12,
               carry := true, current_inst := 0x52 },
    mac := mac0 }

/-- ADC HL,SP with HL=0x7fff, SP=0, C=1 (signed 32767 + 0 + 1 = 32768
overflows, so the claim demands P/V = 1). -/
def sysC1b : Sys :=
  { cpu := { cpu0 with
               h := 0x7f, l := 0xff, sp := 0,
               carry := true, current_inst := 0x7a },
    mac := mac0 }

/-- C1: evaluating the source at the repository's own `test_sbc_hl_de`
input.  The borrow is real (0xabcd − 0xef12 − 1 < 0) and the test asserts
C = 1 and N = 1; the source computes C = 0 (`res >= 0x10000` is never true
for a subtraction) and N = 0.  Second conjunct: for ADC HL,SP at
HL=0x7fff, SP=0, C=1 the signed sum overflows but the source computes
P/V = 0 (its overflow expression requires both operands non-zero). -/
theorem C1_sbc_adc_hl_eval :
    (sysC1.sbc_hl).map (fun t => (t.cpu.get_hl, t.cpu.carry, t.cpu.add_subtract,
        t.cpu.zero, t.cpu.half_carry, t.cpu.parity_overflow))
      = some (0xbcba, false, false, false, false, false)
    ∧ (sysC1b.adc_hl).map (fun t => (t.cpu.get_hl, t.cpu.parity_overflow,
        t.cpu.sign, t.cpu.add_subtract))
      = some (0x8000, false, true, false) := by
  exact ⟨rfl, rfl⟩

/-! ### Claim C7 — LDIR -/

theorem fetch_next_byte_mem (s : Sys) (hq : s.cpu.interrupt_instructions = []) :
    s.fetch_next_byte = (s.mac.read_memory_byte s.cpu.pc,
      { s with cpu := { s.cpu with pc := s.cpu.pc + 1 } }) := by
  unfold Sys.fetch_next_byte
  rw [hq]
  rcases hb : s.cpu.iff1 <;> rfl

theorem get_bc_set_bc (s : CPUState) (v : Nat) : (s.set_bc v).get_bc = v :=
  pair_roundtrip v

theorem get_de_set_de (s : CPUState) (v : Nat) : (s.set_de v).get_de = v :=
  pair_roundtrip v

theorem get_hl_set_hl (s : CPUState) (v : Nat) : (s.set_hl v).get_hl = v :=
  pair_roundtrip v

/-- Effect of one `_ldir` pass: copy byte, bump HL/DE, drop BC (all mod
2^16), set P/V to BC ≠ 0, and either rewind PC by 2 for 21 cycles or leave
it for 16. -/
theorem ldir_spec (s : Sys)
    (hval : s.mac.read_memory_byte (s.cpu.get_hl : Int) ≤ 0xff)
    (hde : s.cpu.get_de ≤ 0xffff) :
    ∃ s', s.ldir = some s'
      ∧ s'.cpu.get_hl = (s.cpu.get_hl + 1) % 65536
      ∧ s'.cpu.get_de = (s.cpu.get_de + 1) % 65536
      ∧ s'.cpu.get_bc = (((s.cpu.get_bc : Int) - 1) % 65536).toNat
      ∧ s'.mac.ram s.cpu.get_de = s.mac.read_memory_byte (s.cpu.get_hl : Int)
      ∧ (s'.cpu.parity_overflow = true ↔ s'.cpu.get_bc ≠ 0)
      ∧ (s'.cpu.get_bc ≠ 0 →
          s'.cpu.pc = s.cpu.pc - 2 ∧ s'.cpu.cycles = s.cpu.cycles + 21)
      ∧ (s'.cpu.get_bc = 0 →
          s'.cpu.pc = s.cpu.pc ∧ s'.cpu.cycles = s.cpu.cycles + 16)
      ∧ s'.cpu.interrupt_instructions = s.cpu.interrupt_instructions := by
  simp only [Sys.ldir, Machine.write_memory_byte]
  rw [if_pos ⟨by omega, by exact_mod_cast hde⟩, if_pos hval]
  refine ⟨_, rfl, ?_, ?_, ?_, ?_, ?_, ?_, ?_, ?_⟩ <;>
    simp only [CPUState.set_bc, CPUState.set_de, CPUState.set_hl,
      CPUState.get_bc, CPUState.get_de, CPUState.get_hl, pair_roundtrip,
      pyAnd_65535, and_65535_eq_mod] <;>
    split_ifs <;>
    simp_all [pair_roundtrip, Int.toNat_ofNat]

/-- The RAM of spec scenario S4: `ED B0` at 0x0000 and the three source
bytes at 0x1234..0x1236. -/
def ramS4 : Nat → Nat := fun x =>
  if x = 0 then 0xed else if x = 1 then 0xb0
  else if x = 0x1234 then 0x42 else if x = 0x1235 then 0x43
  else if x = 0x1236 then 0x44 else 0

/-- Spec scenario S4 start state: HL=0x1234, DE=0x4321, BC=3. -/
def sysS4 : Sys :=
  { cpu := { cpu0 with
               h := 0x12, l := 0x34, d := 0x43, e := 0x21, b := 0, c := 3 },
    mac := { ram := ramS4, ioRead := fun _ _ => 0 } }

/-- RAM after the first LDIR pass of scenario S4. -/
def ramS4a : Nat → Nat := fun x => if x = 0x4321 then 0x42 else ramS4 x

/-- RAM after the second LDIR pass of scenario S4. -/
def ramS4b : Nat → Nat := fun x => if x = 0x4322 then 0x43 else ramS4a x

/-- RAM after the third LDIR pass of scenario S4. -/
def ramS4c : Nat → Nat := fun x => if x = 0x4323 then 0x44 else ramS4b x

/-- Scenario S4 after one `step`: first byte copied, BC=2, PC rewound. -/
def sysS4a : Sys :=
  { cpu := { cpu0 with
               h := 0x12, l := 0x35, d := 0x43, e := 0x22, b := 0, c := 2,
               parity_overflow := true, cycles := 21,
               instruction_pfx := some 0xed, current_inst := 0xb0 },
    mac := { ram := ramS4a, ioRead := fun _ _ => 0 } }

/-- Scenario S4 after two `step`s: BC=1, PC rewound. -/
def sysS4b : Sys :=
  { cpu := { cpu0 with
               h := 0x12, l := 0x36, d := 0x43, e := 0x23, b := 0, c := 1,
               parity_overflow := true, cycles := 42,
               instruction_pfx := some 0xed, current_inst := 0xb0 },
    mac := { ram := ramS4b, ioRead := fun _ _ => 0 } }

/-- Scenario S4 after three `step`s: BC=0, PC past the instruction. -/
def sysS4c : Sys :=
  { cpu := { cpu0 with
               h := 0x12, l := 0x37, d := 0x43, e := 0x24, b := 0, c := 0,
               parity_overflow := false, cycles := 58, pc := 2,
               instruction_pfx := some 0xed, current_inst := 0xb0 },
    mac := { ram := ramS4c, ioRead := fun _ _ => 0 } }

/-- The CPU state on entry to a prefixed handler: both fetch bytes
consumed, prefix and opcode recorded. -/
def prefixEntry (s : Sys) (pfx inst : Nat) : Sys :=
  { s with cpu := { s.cpu with
      pc := s.cpu.pc + 1 + 1
      instruction_pfx := some pfx
      current_inst := inst } }

/-- Dispatch shape of `step` for an ED-prefixed, non-double-prefix opcode. -/
theorem step_prefixed_ed (s t u : Sys) (c : Nat)
    (e0 : s.fetch_next_byte = (0xed, t))
    (e1 : t.fetch_next_byte = (c, u))
    (hc : c ≠ 0xcb) :
    Sys.step s = (match instruction_for (some 0xed) c with
      | some f => f { u with cpu := { u.cpu with
          instruction_pfx := some 0xed, current_inst := c } }
      | none => none) := by
  simp only [Sys.step, e0, e1]
  rw [if_pos (by norm_num), if_neg hc]

/-- Dispatch shape of `step` for an unprefixed opcode. -/
theorem step_plain (s t : Sys) (b : Nat)
    (e0 : s.fetch_next_byte = (b, t))
    (hb : ¬(b = 0xed ∨ b = 0xcb ∨ b = 0xdd ∨ b = 0xfd)) :
    Sys.step s = (match instruction_for none b with
      | some f => f { t with cpu := { t.cpu with
          instruction_pfx := none, current_inst := b } }
      | none => none) := by
  simp only [Sys.step, e0]
  rw [if_neg hb]

/-- C7: a `step` that fetches `ED B0` performs one LDIR pass — copy
(HL)→(DE), HL/DE incremented and BC decremented mod 2^16, P/V = (BC ≠ 0),
and PC left at the instruction start with 21 cycles while BC ≠ 0, else past
the instruction with 16 — and the spec's scenario S4 (three steps from
HL=0x1234, DE=0x4321, BC=3) ends with the three bytes copied, HL=0x1237,
DE=0x4324, BC=0, PC=0x0002, 58 cycles, P/V=0. -/
theorem C7_ldir (s : Sys)
    (hq : s.cpu.interrupt_instructions = [])
    (h0 : s.mac.read_memory_byte s.cpu.pc = 0xed)
    (h1 : s.mac.read_memory_byte (s.cpu.pc + 1) = 0xb0)
    (hval : s.mac.read_memory_byte (s.cpu.get_hl : Int) ≤ 0xff)
    (hde : s.cpu.get_de ≤ 0xffff) :
    (∃ s', Sys.step s = some s'
      ∧ s'.cpu.get_hl = (s.cpu.get_hl + 1) % 65536
      ∧ s'.cpu.get_de = (s.cpu.get_de + 1) % 65536
      ∧ s'.cpu.get_bc = (((s.cpu.get_bc : Int) - 1) % 65536).toNat
      ∧ s'.mac.ram s.cpu.get_de = s.mac.read_memory_byte (s.cpu.get_hl : Int)
      ∧ (s'.cpu.parity_overflow = true ↔ s'.cpu.get_bc ≠ 0)
      ∧ (s'.cpu.get_bc ≠ 0 →
          s'.cpu.pc = s.cpu.pc ∧ s'.cpu.cycles = s.cpu.cycles + 21)
      ∧ (s'.cpu.get_bc = 0 →
          s'.cpu.pc = s.cpu.pc + 2 ∧ s'.cpu.cycles = s.cpu.cycles + 16))
    ∧ ((sysS4.step.bind Sys.step).bind Sys.step).map
        (fun t => (t.cpu.get_hl, t.cpu.get_de, t.cpu.get_bc, t.cpu.pc,
          t.cpu.cycles, t.cpu.parity_overflow,
          t.mac.ram 0x4321, t.mac.ram 0x4322, t.mac.ram 0x4323))
        = some (0x1237, 0x4324, 0, 2, 58, false, 0x42, 0x43, 0x44) := by
  constructor
  · have e0 := fetch_next_byte_mem s hq
    rw [h0] at e0
    have hq1 : ({ s with cpu := { s.cpu with pc := s.cpu.pc + 1 } } : Sys).cpu.interrupt_instructions = [] := hq
    have e1 := fetch_next_byte_mem _ hq1
    rw [show ({ s with cpu := { s.cpu with pc := s.cpu.pc + 1 } } : Sys).mac.read_memory_byte
        ({ s with cpu := { s.cpu with pc := s.cpu.pc + 1 } } : Sys).cpu.pc = 0xb0 from h1] at e1
    have hstep : Sys.step s = Sys.ldir (prefixEntry s 0xed 0xb0) := by
      rw [step_prefixed_ed s _ _ 0xb0 e0 e1 (by norm_num)]
      rfl
    obtain ⟨t, ht, c1, c2, c3, c4, c5, c6, c7, -⟩ :=
      ldir_spec (prefixEntry s 0xed 0xb0) hval hde
    refine ⟨t, by rw [hstep]; exact ht, c1, c2, c3, c4, c5, ?_, ?_⟩
    · intro hbz
      obtain ⟨hp, hc⟩ := c6 hbz
      constructor
      · rw [hp]
        show s.cpu.pc + 1 + 1 - 2 = s.cpu.pc
        omega
      · exact hc
    · intro hbz
      obtain ⟨hp, hc⟩ := c7 hbz
      constructor
      · rw [hp]
        show s.cpu.pc + 1 + 1 = s.cpu.pc + 2
        omega
      · exact hc
  · have hs1 : Sys.step sysS4 = some sysS4a := rfl
    have hs2 : Sys.step sysS4a = some sysS4b := rfl
    have hs3 : Sys.step sysS4b = some sysS4c := rfl
    have hfinal : (sysS4.step.bind Sys.step).bind Sys.step = some sysS4c := by
      rw [hs1]
      show (Sys.step sysS4a).bind Sys.step = some sysS4c
      rw [hs2]
      show Sys.step sysS4b = some sysS4c
      exact hs3
    rw [hfinal]
    rfl

/-- C7 witness: the theorem applied at the scenario S4 state. -/
theorem C7_witness :
    ((sysS4.step.bind Sys.step).bind Sys.step).map
        (fun t => (t.cpu.get_hl, t.cpu.get_de, t.cpu.get_bc, t.cpu.pc,
          t.cpu.cycles, t.cpu.parity_overflow,
          t.mac.ram 0x4321, t.mac.ram 0x4322, t.mac.ram 0x4323))
        = some (0x1237, 0x4324, 0, 2, 58, false, 0x42, 0x43, 0x44) :=
  (C7_ldir sysS4 rfl rfl rfl (by decide) (by decide)).2

/-! ### Claim C8 — IM 2 vector dispatch -/

/-- Effect of `_call` given the fetched target word. -/
theorem call_spec (s t : Sys) (addr : Nat)
    (e : s.fetch_next_word = some (addr, t)) (s' : Sys) (h : s.call = some s') :
    s'.cpu.pc = (addr : Int)
    ∧ s'.cpu.sp = t.cpu.sp - 2
    ∧ s'.cpu.interrupt_instructions = t.cpu.interrupt_instructions
    ∧ s'.cpu.cycles = t.cpu.cycles + 17
    ∧ t.mac.write_memory_word (t.cpu.sp - 2) t.cpu.pc = some s'.mac := by
  unfold Sys.call at h
  rw [e] at h
  simp only [] at h
  rcases hp : t.push_to_stack t.cpu.pc with _ | s2
  · rw [hp] at h
    simp at h
  · rw [hp] at h
    have h2 : some { s2 with cpu := { s2.cpu with
        pc := (addr : Int), cycles := s2.cpu.cycles + 17 } } = some s' := h
    injection h2 with h2
    subst h2
    simp only [Sys.push_to_stack] at hp
    rw [Option.map_eq_some'] at hp
    obtain ⟨m, hm, hf⟩ := hp
    subst hf
    exact ⟨rfl, rfl, rfl, rfl, hm⟩

/-- The RAM of spec scenario S6: vector word 0xBEEF at 0xBE42/0xBE43. -/
def ramS6 : Nat → Nat := fun x =>
  if x = 0xbe42 then 0xef else if x = 0xbe43 then 0xbe else 0

/-- Spec scenario S6 start state: IM=2, IFF1 set, I=0xBE, SP=0x1234. -/
def sysS6 : Sys :=
  { cpu := { cpu0 with iff1 := true, interrupt_mode := 2, i := 0xbe, sp := 0x1234 },
    mac := { ram := ramS6, ioRead := fun _ _ => 0 } }

/-- Scenario S6 after `schedule_interrupt([0x42])`: the queue holds the
CALL 0xBEEF encoding. -/
def sysS6a : Sys :=
  { sysS6 with cpu := { sysS6.cpu with
      interrupt_instructions := [0xcd, 0xef, 0xbe] } }

/-- RAM of scenario S6 after the CALL pushed PC = 0x0000 at 0x1232. -/
def ramS6b : Nat → Nat := fun x =>
  if x = 0x1233 then 0 else if x = 0x1232 then 0 else ramS6 x

/-- Scenario S6 after the dispatching `step`: PC=0xBEEF, SP=0x1232. -/
def sysS6b : Sys :=
  { cpu := { cpu0 with
               iff1 := true, interrupt_mode := 2, i := 0xbe,
               sp := 0x1232, pc := 0xbeef, cycles := 17, current_inst := 0xcd },
    mac := { ram := ramS6b, ioRead := fun _ _ => 0 } }

/-- C8: with IFF1 set and IM = 2, `schedule_interrupt(data)` reads the
handler word at `(I << 8) | (data[0] & 0xFE)` and queues `CD low high`; a
`step` on a state whose queue holds `CD lo hi` performs the CALL: PC becomes
`lo | (hi << 8)`, SP drops by 2, the queue empties, 17 cycles accrue; and
the spec's scenario S6 (I=0xBE, vector byte 0x42, vector word 0xBEEF,
SP=0x1234) ends with PC=0xBEEF, SP=0x1232 and little-endian 0x0000 pushed
at 0x1232. -/
theorem C8_im2 :
    (∀ (s : Sys) (d0 : Nat) (rest : List Nat),
      s.cpu.iff1 = true → s.cpu.interrupt_mode = 2 →
      s.schedule_interrupt (d0 :: rest) = some { s with cpu := { s.cpu with
        interrupt_instructions := [0xcd,
          s.mac.read_memory_word (((s.cpu.i <<< 8) ||| (d0 &&& 0xfe) : Nat) : Int) &&& 0xff,
          s.mac.read_memory_word (((s.cpu.i <<< 8) ||| (d0 &&& 0xfe) : Nat) : Int) >>> 8] } })
    ∧ (∀ (s : Sys) (lo hi : Nat), s.cpu.iff1 = true →
        s.cpu.interrupt_instructions = [0xcd, lo, hi] →
        ∀ s', Sys.step s = some s' →
          s'.cpu.pc = ((lo ||| (hi <<< 8) : Nat) : Int)
          ∧ s'.cpu.sp = s.cpu.sp - 2
          ∧ s'.cpu.interrupt_instructions = []
          ∧ s'.cpu.cycles = s.cpu.cycles + 17
          ∧ s.mac.write_memory_word (s.cpu.sp - 2) s.cpu.pc = some s'.mac)
    ∧ ((sysS6.schedule_interrupt [0x42]).bind Sys.step).map
        (fun t => (t.cpu.pc, t.cpu.sp, t.mac.ram 0x1232, t.mac.ram 0x1233))
        = some (0xbeef, 0x1232, 0x00, 0x00) := by
  refine ⟨?_, ?_, ?_⟩
  · intro s d0 rest hiff hmode
    unfold Sys.schedule_interrupt
    rw [hiff, hmode]
    norm_num
  · intro s lo hi hiff hq s' hstep
    have e0 : s.fetch_next_byte = (0xcd,
        { s with cpu := { s.cpu with interrupt_instructions := [lo, hi] } }) := by
      unfold Sys.fetch_next_byte
      rw [hiff, hq]
    rw [step_plain s _ 0xcd e0 (by norm_num)] at hstep
    have e1 : ({ s with cpu := { s.cpu with
          interrupt_instructions := [lo, hi],
          instruction_pfx := none, current_inst := 0xcd } } : Sys).fetch_next_word
        = some (lo ||| (hi <<< 8),
          { s with cpu := { s.cpu with
              interrupt_instructions := [],
              instruction_pfx := none, current_inst := 0xcd } }) := by
      unfold Sys.fetch_next_word
      rw [show ({ s with cpu := { s.cpu with
          interrupt_instructions := [lo, hi],
          instruction_pfx := none, current_inst := 0xcd } } : Sys).cpu.iff1 = true from hiff]
    have hcall := call_spec _ _ _ e1 s' hstep
    exact hcall
  · have g1 : sysS6.schedule_interrupt [0x42] = some sysS6a := rfl
    have g2 : Sys.step sysS6a = some sysS6b := rfl
    have gfinal : (sysS6.schedule_interrupt [0x42]).bind Sys.step = some sysS6b := by
      rw [g1]
      show Sys.step sysS6a = some sysS6b
      exact g2
    rw [gfinal]
    rfl

/-- C8 witness: the schedule part of the theorem applied at scenario S6. -/
theorem C8_witness :
    sysS6.schedule_interrupt [0x42] = some { sysS6 with cpu := { sysS6.cpu with
      interrupt_instructions := [0xcd,
        sysS6.mac.read_memory_word (((sysS6.cpu.i <<< 8) ||| (0x42 &&& 0xfe) : Nat) : Int) &&& 0xff,
        sysS6.mac.read_memory_word (((sysS6.cpu.i <<< 8) ||| (0x42 &&& 0xfe) : Nat) : Int) >>> 8] } } :=
  C8_im2.1 sysS6 0x42 [] rfl rfl

end ZX
